import Mathlib

/-!
Verification of the flight-tracker position-update engine
(`src/flight-service/server.js`): geodesy (bearing, great-circle move,
haversine distance), the airport catalog, the flight generator and the
tick engine, embedded shallowly over `ℝ` (JS doubles idealised as reals,
timestamps as integers, the random source as injected values in `[0,1)`).
JS `%` (sign-of-dividend remainder) is modelled by `jsMod`; the
re-route resampling loop, which in JS retries until it draws a distinct
airport, is modelled with explicit fuel, `none` standing for a run of
the loop that never terminates.
-/

namespace FlightTracker

/-- A latitude/longitude pair in degrees, as JS number fields. -/
structure GeoPoint where
  lat : ℝ
  lon : ℝ

/-- One entry of the `AIRPORTS` table; coordinates are the exact decimal
literals of the source, kept as rationals. -/
structure Airport where
  iata : String
  name : String
  lat : ℚ
  lon : ℚ
deriving DecidableEq

/-- The coordinates of an airport as a `GeoPoint`. -/
def Airport.point (a : Airport) : GeoPoint :=
  { lat := (a.lat : ℝ), lon := (a.lon : ℝ) }

/-- The fixed airport catalog of `server.js`. -/
def AIRPORTS : List Airport :=
  [ { iata := "JFK", name := "John F. Kennedy Intl", lat := 40.6413, lon := -73.7781 },
    { iata := "LAX", name := "Los Angeles Intl", lat := 33.9416, lon := -118.4085 },
    { iata := "ORD", name := "Chicago OHare Intl", lat := 41.9742, lon := -87.9073 },
    { iata := "DFW", name := "Dallas/Fort Worth Intl", lat := 32.8998, lon := -97.0403 },
    { iata := "YYZ", name := "Toronto Pearson", lat := 43.6777, lon := -79.6248 },
    { iata := "CDG", name := "Paris Charles de Gaulle", lat := 49.0097, lon := 2.5479 },
    { iata := "LHR", name := "London Heathrow", lat := 51.4700, lon := -0.4543 },
    { iata := "DXB", name := "Dubai Intl", lat := 25.2532, lon := 55.3657 },
    { iata := "HND", name := "Tokyo Haneda", lat := 35.5494, lon := 139.7798 },
    { iata := "SYD", name := "Sydney", lat := -33.9399, lon := 151.1753 } ]

/-- JS `%`: remainder of truncating division, carrying the sign of the
dividend (`x`), for a positive modulus `n`. -/
noncomputable def jsMod (x n : ℝ) : ℝ :=
  if 0 ≤ x then x - n * ⌊x / n⌋ else x - n * ⌈x / n⌉

/-- JS `Math.atan2(y, x)`: the argument of the complex number `x + y i`,
in `(-π, π]`, with `atan2 0 0 = 0`. -/
noncomputable def atan2 (y x : ℝ) : ℝ :=
  Complex.arg ((x : ℂ) + (y : ℂ) * Complex.I)

/-- `bearingDegrees(from, to)` of `server.js`: initial great-circle
bearing between two points, in degrees. -/
noncomputable def bearingDegrees (fr toP : GeoPoint) : ℝ :=
  let phi1 := fr.lat * Real.pi / 180
  let phi2 := toP.lat * Real.pi / 180
  let dLam := (toP.lon - fr.lon) * Real.pi / 180
  let y := Real.sin dLam * Real.cos phi2
  let x := Real.cos phi1 * Real.sin phi2 -
      Real.sin phi1 * Real.cos phi2 * Real.cos dLam
  let theta := atan2 y x
  jsMod (theta * 180 / Real.pi + 360) 360

/-- `move(from, bearingDeg, distanceKm)` of `server.js`: displace a
point along a great circle; Earth radius 6371 km. -/
noncomputable def move (fr : GeoPoint) (bearingDeg d : ℝ) : GeoPoint :=
  let R : ℝ := 6371
  let delta := d / R
  let theta := bearingDeg * Real.pi / 180
  let phi1 := fr.lat * Real.pi / 180
  let lam1 := fr.lon * Real.pi / 180
  let sinphi1 := Real.sin phi1
  let cosphi1 := Real.cos phi1
  let sindelta := Real.sin delta
  let cosdelta := Real.cos delta
  let sintheta := Real.sin theta
  let costheta := Real.cos theta
  let sinphi2 := sinphi1 * cosdelta + cosphi1 * sindelta * costheta
  let phi2 := Real.arcsin sinphi2
  let y := sintheta * sindelta * cosphi1
  let x := cosdelta - sinphi1 * sinphi2
  let lam2 := lam1 + atan2 y x
  { lat := phi2 * 180 / Real.pi,
    lon := jsMod (lam2 * 180 / Real.pi + 540) 360 - 180 }

/-- `distanceKm(a, b)` of `server.js`: haversine distance in km. -/
noncomputable def distanceKm (a b : GeoPoint) : ℝ :=
  let R : ℝ := 6371
  let phi1 := a.lat * Real.pi / 180
  let phi2 := b.lat * Real.pi / 180
  let dPhi := (b.lat - a.lat) * Real.pi / 180
  let dLam := (b.lon - a.lon) * Real.pi / 180
  let s := Real.sin (dPhi / 2) ^ 2 +
      Real.cos phi1 * Real.cos phi2 * Real.sin (dLam / 2) ^ 2
  2 * R * Real.arcsin (Real.sqrt s)

/-- Fallback for an (unreachable, in-contract) out-of-range catalog index. -/
def dfltAirport : Airport :=
  { iata := "", name := "", lat := 0, lon := 0 }

/-- `AIRPORTS[Math.floor(r * AIRPORTS.length)]` for one random draw
`r` (in `[0,1)` in-contract). -/
noncomputable def airportAt (r : ℝ) : Airport :=
  AIRPORTS.getD (Int.toNat ⌊r * (AIRPORTS.length : ℝ)⌋) dfltAirport

/-- The `while (to.iata === from.iata)` resampling loop of
`pickDifferentAirports`, reading draws `rs k, rs (k+1), ...` with
explicit fuel; `none` models a run of the loop that never leaves it. -/
noncomputable def pickTo (fr : Airport) (rs : ℕ → ℝ) : ℕ → ℕ → Option Airport
  | 0, _ => none
  | fuel + 1, k =>
    let t := airportAt (rs k)
    if t.iata = fr.iata then pickTo fr rs fuel (k + 1) else some t

/-- `pickDifferentAirports()` of `server.js`: draw `from` at `rs 0`,
then resample `to` from `rs 1` onwards until its code differs. -/
noncomputable def pickDifferentAirports (rs : ℕ → ℝ) (fuel : ℕ) :
    Option (Airport × Airport) :=
  let fr := airportAt (rs 0)
  match pickTo fr rs fuel 1 with
  | some t => some (fr, t)
  | none => none

/-- `String(n).padStart(4, '0')` for the callsign digits. -/
def padStart4 (s : String) : String :=
  if s.length ≥ 4 then s else String.mk (List.replicate (4 - s.length) '0') ++ s

/-- A flight record as built by `makeFlight`; `from_` and `to_` stand for the JS
fields `from` and `to` (Lean keywords). Numbers are reals, timestamps integer
milliseconds. -/
structure Flight where
  id : String
  callsign : String
  from_ : String
  to_ : String
  lat : ℝ
  lon : ℝ
  heading : ℝ
  speedKts : ℝ
  altitudeFt : ℝ
  createdAt : ℤ
  updatedAt : ℤ

/-- `makeFlight(id)` of `server.js`, with the random draws injected:
`rs`/`fuel` feed the airport pair selection, `rS, rA, rC, rD` are the
draws for speed, altitude, callsign and starting offset, and `now` is
`Date.now()`. `none` models a non-terminating airport resampling loop. -/
noncomputable def makeFlight (id : String) (rs : ℕ → ℝ) (fuel : ℕ)
    (rS rA rC rD : ℝ) (now : ℤ) : Option Flight :=
  match pickDifferentAirports rs fuel with
  | none => none
  | some (fr, toA) =>
    let heading := bearingDegrees fr.point toA.point
    let speedKts : ℤ := ⌊(380 : ℝ) + rS * 180⌋
    let altitudeFt : ℤ := ⌊(28000 : ℝ) + rA * 12000⌋
    let callsign := "CC" ++ padStart4 (toString (Int.toNat ⌊rC * 9999⌋))
    let start := move { lat := (fr.lat : ℝ), lon := (fr.lon : ℝ) } heading (rD * 50 + 10)
    some
      { id := id
        callsign := callsign
        from_ := fr.iata
        to_ := toA.iata
        lat := start.lat
        lon := start.lon
        heading := heading
        speedKts := (speedKts : ℝ)
        altitudeFt := (altitudeFt : ℝ)
        createdAt := now
        updatedAt := now }

/-- `tick(f)` of `server.js`, with `Date.now()` injected as `now`, the
re-route airport draws as `rs`/`fuel`, and the heading-perturbation draw
as `pr`. `none` models only a non-terminating re-route resampling loop. -/
noncomputable def tick (f : Flight) (now : ℤ) (rs : ℕ → ℝ) (fuel : ℕ)
    (pr : ℝ) : Option Flight :=
  let dtHours : ℝ := max 0 (((now - f.updatedAt : ℤ) : ℝ)) / 3600000
  if dtHours ≤ 0 then some f else
    let kmPerHr := f.speedKts * 1.852
    let stepKm := kmPerHr * dtHours
    let next := move { lat := f.lat, lon := f.lon } f.heading stepKm
    let f1 : Flight := { f with lat := next.lat, lon := next.lon, updatedAt := now }
    let f2 : Option Flight :=
      match AIRPORTS.find? (fun a => a.iata = f1.to_) with
      | some dest =>
        if distanceKm { lat := f1.lat, lon := f1.lon } dest.point < 30 then
          match pickDifferentAirports rs fuel with
          | some (fr, toA) =>
            some { f1 with from_ := fr.iata, to_ := toA.iata,
                           heading := bearingDegrees fr.point toA.point }
          | none => none
        else some f1
      | none => some f1
    f2.map fun g => { g with heading := jsMod (g.heading + (pr * 2 - 1) * 2) 360 }

/-- The flights reachable in the running service: produced by the
generator, or obtained from a reachable flight by one (terminating)
tick. -/
inductive Reachable : Flight → Prop where
  | gen (id : String) (rs : ℕ → ℝ) (fuel : ℕ) (rS rA rC rD : ℝ) (now : ℤ)
      (f : Flight) : makeFlight id rs fuel rS rA rC rD now = some f → Reachable f
  | step (f g : Flight) (now : ℤ) (rs : ℕ → ℝ) (fuel : ℕ) (pr : ℝ) :
      Reachable f → tick f now rs fuel pr = some g → Reachable g

/-! Helper lemmas about `jsMod`, `atan2` and the geodesy functions. -/

lemma jsMod_nonneg_lt (x n : ℝ) (hx : 0 ≤ x) (hn : 0 < n) :
    0 ≤ jsMod x n ∧ jsMod x n < n := by
  rw [jsMod, if_pos hx]
  have hxn : n * (x / n) = x := by field_simp
  constructor
  · have h := Int.floor_le (x / n)
    have h2 := mul_le_mul_of_nonneg_left h hn.le
    linarith
  · have h := Int.lt_floor_add_one (x / n)
    have h2 := mul_lt_mul_of_pos_left h hn
    have h3 : n * (↑⌊x / n⌋ + 1) = n * ↑⌊x / n⌋ + n := by ring
    linarith [h3 ▸ h2]

lemma jsMod_eq_self (x n : ℝ) (hx : 0 ≤ x) (hn : 0 < n) (hxn : x < n) :
    jsMod x n = x := by
  rw [jsMod, if_pos hx,
    Int.floor_eq_zero_iff.mpr
      (Set.mem_Ico.mpr ⟨div_nonneg hx hn.le, (div_lt_one hn).mpr hxn⟩)]
  simp

lemma atan2_zero_of_nonneg (x : ℝ) (hx : 0 ≤ x) : atan2 0 x = 0 := by
  rw [atan2]
  norm_num
  exact Complex.arg_ofReal_of_nonneg hx

lemma distanceKm_self (a : GeoPoint) : distanceKm a a = 0 := by
  simp [distanceKm]

lemma move_zero (p : GeoPoint) (b : ℝ) (hlat1 : -90 ≤ p.lat) (hlat2 : p.lat ≤ 90)
    (hlon1 : -180 < p.lon) (hlon2 : p.lon < 180) : move p b 0 = p := by
  have hpi := Real.pi_pos
  have harcsin : Real.arcsin (Real.sin (p.lat * Real.pi / 180)) =
      p.lat * Real.pi / 180 := by
    apply Real.arcsin_sin
    · nlinarith
    · nlinarith
  have hx : (0 : ℝ) ≤ 1 - Real.sin (p.lat * Real.pi / 180) *
      Real.sin (p.lat * Real.pi / 180) := by
    nlinarith [Real.sin_sq_le_one (p.lat * Real.pi / 180),
      sq_nonneg (Real.sin (p.lat * Real.pi / 180))]
  have hmod : jsMod (p.lon + 540) 360 = p.lon + 180 := by
    rw [jsMod, if_pos (by linarith)]
    have hfloor : ⌊(p.lon + 540) / 360⌋ = 1 := by
      rw [Int.floor_eq_iff]
      constructor
      · push_cast
        rw [le_div_iff₀ (by norm_num)]
        linarith
      · push_cast
        rw [div_lt_iff₀ (by norm_num)]
        linarith
    rw [hfloor]
    push_cast
    ring
  simp only [move, zero_div, Real.sin_zero, Real.cos_zero, mul_one, mul_zero,
    zero_mul, add_zero, zero_sub]
  rw [harcsin, atan2_zero_of_nonneg _ (by linarith [hx]), add_zero]
  have hlat : p.lat * Real.pi / 180 * 180 / Real.pi = p.lat := by
    field_simp
  have hlon : p.lon * Real.pi / 180 * 180 / Real.pi = p.lon := by
    field_simp
  rw [hlat, hlon, hmod]
  norm_num

lemma atan2_bounds (y x : ℝ) : -Real.pi < atan2 y x ∧ atan2 y x ≤ Real.pi :=
  ⟨Complex.neg_pi_lt_arg _, Complex.arg_le_pi _⟩

lemma lonNorm_bounds (lam1 A : ℝ) (ha : -Real.pi ≤ lam1) (hc : -Real.pi < A) :
    -180 ≤ jsMod ((lam1 + A) * 180 / Real.pi + 540) 360 - 180 ∧
    jsMod ((lam1 + A) * 180 / Real.pi + 540) 360 - 180 < 180 := by
  have hpi := Real.pi_pos
  have ht : -360 < (lam1 + A) * 180 / Real.pi := by
    have h1 : -(2 * Real.pi) * 180 < (lam1 + A) * 180 := by nlinarith
    have h2 := (div_lt_div_iff_of_pos_right hpi).mpr h1
    have h3 : -(2 * Real.pi) * 180 / Real.pi = -360 := by
      field_simp
      ring
    linarith [h3 ▸ h2]
  obtain ⟨hm1, hm2⟩ :=
    jsMod_nonneg_lt ((lam1 + A) * 180 / Real.pi + 540) 360 (by linarith) (by norm_num)
  constructor <;> linarith

/-! Claim theorems. -/

/-- C6: for all points `a` and `b`, `distanceKm a b = distanceKm b a`,
and for every point `a`, `distanceKm a a = 0`. -/
theorem distanceKm_symm_and_self_zero (a b : GeoPoint) :
    distanceKm a b = distanceKm b a ∧ distanceKm a a = 0 := by
  refine ⟨?_, distanceKm_self a⟩
  simp only [distanceKm]
  rw [show (a.lat - b.lat) * Real.pi / 180 = -((b.lat - a.lat) * Real.pi / 180) by ring,
    show (a.lon - b.lon) * Real.pi / 180 = -((b.lon - a.lon) * Real.pi / 180) by ring,
    neg_div, Real.sin_neg, neg_div, Real.sin_neg]
  ring_nf

/-- C2 (amended): for every input point with longitude in `[-180, 180]`,
any bearing and any distance, the longitude returned by `move` lies in
the half-open interval `[-180, 180)`: at least `-180` and strictly less
than `180` (the `((x+540) % 360) - 180` normalization can return exactly
`-180`, and never returns `180`). -/
theorem move_lon_range (fr : GeoPoint) (b d : ℝ)
    (h1 : -180 ≤ fr.lon) (_h2 : fr.lon ≤ 180) :
    -180 ≤ (move fr b d).lon ∧ (move fr b d).lon < 180 := by
  have hpi := Real.pi_pos
  have hlam1 : -Real.pi ≤ fr.lon * Real.pi / 180 := by nlinarith
  simp only [move]
  exact lonNorm_bounds _ _ hlam1 (Complex.neg_pi_lt_arg _)

/-- C2 witness: the amended range theorem applied at the concrete input
`move ⟨0, 0⟩ 0 0`. -/
theorem move_lon_range_witness :
    -180 ≤ (move { lat := 0, lon := 0 } 0 0).lon ∧
    (move { lat := 0, lon := 0 } 0 0).lon < 180 :=
  move_lon_range { lat := 0, lon := 0 } 0 0 (by norm_num) (by norm_num)

/-- C2 counterexample: at the antimeridian point `⟨0, 180⟩`, bearing 90
and distance 0, `move` returns longitude exactly `-180`, which is not in
the claimed interval `(-180, 180]`. -/
theorem move_lon_not_in_Ioc :
    (move { lat := 0, lon := 180 } 90 0).lon = -180 ∧
    ¬ (-180 < (move { lat := 0, lon := 180 } 90 0).lon) := by
  have hpi := Real.pi_pos
  have h : (move { lat := (0:ℝ), lon := (180:ℝ) } 90 0).lon = -180 := by
    simp only [move]
    norm_num [Real.sin_zero, Real.cos_zero]
    rw [atan2_zero_of_nonneg 1 (by norm_num)]
    rw [show (Real.pi + 0) * 180 / Real.pi + 540 = 720 by field_simp; ring]
    rw [jsMod, if_pos (by norm_num)]
    rw [show (720:ℝ) / 360 = ((2:ℤ):ℝ) by norm_num, Int.floor_intCast]
    norm_num
  exact ⟨h, by rw [h]; norm_num⟩

lemma dtHours_nonpos {f : Flight} {now : ℤ} (h : now ≤ f.updatedAt) :
    max 0 (((now - f.updatedAt : ℤ) : ℝ)) / 3600000 ≤ 0 := by
  have hle : ((now - f.updatedAt : ℤ) : ℝ) ≤ 0 := by
    exact_mod_cast sub_nonpos.mpr h
  rw [max_eq_left hle]
  norm_num

lemma elapsed_pos_of_not_dt {f : Flight} {now : ℤ}
    (h : ¬ max 0 (((now - f.updatedAt : ℤ) : ℝ)) / 3600000 ≤ 0) :
    f.updatedAt < now := by
  by_contra hc
  push_neg at hc
  exact h (dtHours_nonpos hc)

/-- C3: if the current time is at or before the flight's `updatedAt`,
`tick` returns the flight itself, every field unchanged. -/
theorem tick_zero_elapsed_noop (f : Flight) (now : ℤ) (rs : ℕ → ℝ) (fuel : ℕ)
    (pr : ℝ) (h : now ≤ f.updatedAt) : tick f now rs fuel pr = some f := by
  simp only [tick]
  rw [if_pos (dtHours_nonpos h)]

/-- C3 witness: ticking a concrete flight at exactly its `updatedAt`
returns it unchanged. -/
theorem tick_zero_elapsed_noop_witness :
    tick { id := "f1", callsign := "CC0001", from_ := "JFK", to_ := "LAX",
           lat := 40, lon := -73, heading := 90, speedKts := 450,
           altitudeFt := 30000, createdAt := 0, updatedAt := 0 }
      0 (fun _ => 0) 1 0 =
    some { id := "f1", callsign := "CC0001", from_ := "JFK", to_ := "LAX",
           lat := 40, lon := -73, heading := 90, speedKts := 450,
           altitudeFt := 30000, createdAt := 0, updatedAt := 0 } :=
  tick_zero_elapsed_noop _ 0 (fun _ => 0) 1 0 (by norm_num)

/-- C8: whenever `tick` returns a flight, its `updatedAt` is at least
the `updatedAt` of the input flight: `updatedAt` never decreases,
whatever the current time (including times earlier than `updatedAt`). -/
theorem tick_updatedAt_mono (f : Flight) (now : ℤ) (rs : ℕ → ℝ) (fuel : ℕ)
    (pr : ℝ) (g : Flight) (h : tick f now rs fuel pr = some g) :
    f.updatedAt ≤ g.updatedAt := by
  simp only [tick] at h
  split at h
  · cases Option.some.inj h
    exact le_refl _
  · next hdt =>
    have hnow : f.updatedAt ≤ now := (elapsed_pos_of_not_dt hdt).le
    split at h
    · next dest hfind =>
      split at h
      · split at h
        · next fr2 to2 hpick =>
          simp only [Option.map_some'] at h
          cases Option.some.inj h
          simpa using hnow
        · simp at h
      · simp only [Option.map_some'] at h
        cases Option.some.inj h
        simpa using hnow
    · simp only [Option.map_some'] at h
      cases Option.some.inj h
      simpa using hnow

/-- A constant all-zero random stream. -/
def rsZero : ℕ → ℝ := fun _ => 0

/-- A flight with heading 1 whose destination code is not in the
catalog; used to evaluate the heading-perturbation step in isolation. -/
def headingBugFlight : Flight :=
  { id := "f0", callsign := "CC0000", from_ := "JFK", to_ := "ZZZ",
    lat := 0, lon := 0, heading := 1, speedKts := 400, altitudeFt := 30000,
    createdAt := 0, updatedAt := 0 }

/-- C1 (evaluation of the code at the failing input): ticking a flight
with heading 1 one hour later, with perturbation draw 0 (that is,
adding `(0*2-1)*2 = -2` degrees), returns heading `-1`, which is
negative: `(h + p) % 360` with the JS sign-of-dividend `%` does not
renormalize into `[0,360)`. -/
theorem tick_heading_negative :
    (tick headingBugFlight 3600000 rsZero 1 0).map Flight.heading = some (-1) ∧
    ¬ (0 : ℝ) ≤ -1 := by
  refine ⟨?_, by norm_num⟩
  have hfind : AIRPORTS.find? (fun a => decide (a.iata = "ZZZ")) = none := by decide
  simp only [tick, headingBugFlight, rsZero]
  rw [if_neg (by norm_num [max_def])]
  rw [hfind]
  simp only [Option.map_some']
  congr 1
  rw [show (1 : ℝ) + ((0 : ℝ) * 2 - 1) * 2 = -1 by norm_num]
  rw [jsMod, if_neg (by norm_num)]
  rw [show ⌈(-1 : ℝ) / 360⌉ = 0 by
    rw [Int.ceil_eq_zero_iff]
    constructor <;> norm_num]
  norm_num

lemma dtHours_pos {f : Flight} {now : ℤ} (hnow : f.updatedAt < now) :
    ¬ max 0 (((now - f.updatedAt : ℤ) : ℝ)) / 3600000 ≤ 0 := by
  have hpos : (0 : ℝ) < ((now - f.updatedAt : ℤ) : ℝ) := by
    exact_mod_cast sub_pos.mpr hnow
  rw [max_eq_right hpos.le]
  push_neg
  exact div_pos hpos (by norm_num)

/-- C7: if the destination code of a flight is not in the catalog,
`tick` performs no arrival check and raises no error: it returns a
flight (never fails), advances the position by dead reckoning, sets
`updatedAt := now` and perturbs the heading, leaving the origin and
destination codes (and all other fields) unchanged. -/
theorem tick_missing_dest_skips (f : Flight) (now : ℤ) (rs : ℕ → ℝ) (fuel : ℕ)
    (pr : ℝ) (next : GeoPoint)
    (hnow : f.updatedAt < now)
    (hnext : next = move { lat := f.lat, lon := f.lon } f.heading
      (f.speedKts * 1.852 * (max 0 (((now - f.updatedAt : ℤ) : ℝ)) / 3600000)))
    (hfind : AIRPORTS.find? (fun a => decide (a.iata = f.to_)) = none) :
    tick f now rs fuel pr =
      some { f with
             lat := next.lat
             lon := next.lon
             updatedAt := now
             heading := jsMod (f.heading + (pr * 2 - 1) * 2) 360 } := by
  subst hnext
  simp only [tick]
  rw [if_neg (dtHours_pos hnow)]
  rw [hfind]
  rfl

/-- C7 witness: ticking the concrete flight with destination code
`"ZZZ"` (absent from the catalog) one hour later succeeds and only
advances position, `updatedAt` and heading. -/
theorem tick_missing_dest_skips_witness :
    tick headingBugFlight 3600000 rsZero 1 0 =
      some { headingBugFlight with
             lat := (move { lat := headingBugFlight.lat, lon := headingBugFlight.lon }
               headingBugFlight.heading (headingBugFlight.speedKts * 1.852 *
                 (max 0 (((3600000 - headingBugFlight.updatedAt : ℤ) : ℝ)) / 3600000))).lat,
             lon := (move { lat := headingBugFlight.lat, lon := headingBugFlight.lon }
               headingBugFlight.heading (headingBugFlight.speedKts * 1.852 *
                 (max 0 (((3600000 - headingBugFlight.updatedAt : ℤ) : ℝ)) / 3600000))).lon,
             updatedAt := 3600000,
             heading := jsMod (headingBugFlight.heading + ((0 : ℝ) * 2 - 1) * 2) 360 } :=
  tick_missing_dest_skips headingBugFlight 3600000 rsZero 1 0 _
    (by norm_num [headingBugFlight]) rfl (by decide)

lemma pickTo_ne (fr : Airport) (rs : ℕ → ℝ) :
    ∀ fuel k t, pickTo fr rs fuel k = some t → t.iata ≠ fr.iata := by
  intro fuel
  induction fuel with
  | zero =>
    intro k t h
    simp [pickTo] at h
  | succ n ih =>
    intro k t h
    simp only [pickTo] at h
    split at h
    · exact ih (k + 1) t h
    · next hne =>
      cases Option.some.inj h
      exact hne

lemma pick_ne (rs : ℕ → ℝ) (fuel : ℕ) (fr2 to2 : Airport)
    (h : pickDifferentAirports rs fuel = some (fr2, to2)) :
    to2.iata ≠ fr2.iata := by
  simp only [pickDifferentAirports] at h
  split at h
  · next t hto =>
    simp only [Option.some.injEq, Prod.mk.injEq] at h
    obtain ⟨rfl, rfl⟩ := h
    exact pickTo_ne _ _ _ _ _ hto
  · simp at h

/-- C4: every flight reachable from the generator by any sequence of
(terminating) ticks has an origin code different from its destination
code: the generator never yields `from == to`, and every re-route
installs a pair of distinct airports. -/
theorem reachable_from_ne_to (f : Flight) (h : Reachable f) :
    f.from_ ≠ f.to_ := by
  induction h with
  | gen id rs fuel rS rA rC rD now g hm =>
    simp only [makeFlight] at hm
    split at hm
    · simp at hm
    · next fr2 to2 hpick =>
      cases Option.some.inj hm
      simpa using (pick_ne _ _ _ _ hpick).symm
  | step f g now rs fuel pr hre htick ih =>
    simp only [tick] at htick
    split at htick
    · cases Option.some.inj htick
      exact ih
    · split at htick
      · split at htick
        · split at htick
          · next fr2 to2 hpick =>
            simp only [Option.map_some'] at htick
            cases Option.some.inj htick
            simpa using (pick_ne _ _ _ _ hpick).symm
          · simp at htick
        · simp only [Option.map_some'] at htick
          cases Option.some.inj htick
          simpa using ih
      · simp only [Option.map_some'] at htick
        cases Option.some.inj htick
        simpa using ih

/-- The JFK catalog entry. -/
def jfkA : Airport :=
  { iata := "JFK", name := "John F. Kennedy Intl", lat := 40.6413, lon := -73.7781 }

/-- The LAX catalog entry. -/
def laxA : Airport :=
  { iata := "LAX", name := "Los Angeles Intl", lat := 33.9416, lon := -118.4085 }

/-- A random stream drawing index 0 (JFK) first, then index 1 (LAX). -/
noncomputable def rsJL : ℕ → ℝ := fun n => if n = 0 then 0 else 3 / 20

lemma airportAt_zero : airportAt 0 = jfkA := by
  rw [airportAt]
  norm_num
  rfl

lemma airportAt_3div20 : airportAt (3 / 20) = laxA := by
  rw [airportAt]
  have hlen : AIRPORTS.length = 10 := rfl
  rw [hlen]
  rw [show ((3 : ℝ) / 20) * ((10 : ℕ) : ℝ) = 3 / 2 by push_cast; ring]
  rw [show ⌊(3 : ℝ) / 2⌋ = 1 by rw [Int.floor_eq_iff]; norm_num]
  rfl

lemma pick_rsJL : pickDifferentAirports rsJL 2 = some (jfkA, laxA) := by
  have h0 : rsJL 0 = 0 := by simp [rsJL]
  have h1 : rsJL 1 = 3 / 20 := by simp [rsJL]
  rw [pickDifferentAirports, show (2 : ℕ) = 1 + 1 from rfl, h0, airportAt_zero, pickTo]
  simp only [h1, airportAt_3div20]
  rw [if_neg (show ¬ (laxA.iata = jfkA.iata) by decide)]

/-- The property that a flight's origin and destination codes differ. -/
def distinctRoute (f : Flight) : Prop := f.from_ ≠ f.to_

/-- C4 witness: a concrete generated flight is reachable and the
reachability invariant instantiates to it. -/
theorem reachable_from_ne_to_witness :
    (makeFlight "F1" rsJL 2 0 0 0 0 0).elim False Reachable ∧
    (makeFlight "F1" rsJL 2 0 0 0 0 0).elim False distinctRoute := by
  have hm : ∃ g, makeFlight "F1" rsJL 2 0 0 0 0 0 = some g := by
    simp only [makeFlight, pick_rsJL]
    exact ⟨_, rfl⟩
  obtain ⟨g, hg⟩ := hm
  have hre : Reachable g := Reachable.gen "F1" rsJL 2 0 0 0 0 0 g hg
  rw [hg]
  exact ⟨hre, reachable_from_ne_to g hre⟩

/-- C9: every flight the generator returns has speed in `[380, 560)`
knots and altitude in `[28000, 40000)` feet, for every outcome of the
random draws in `[0,1)`. -/
theorem makeFlight_speed_alt_ranges (id : String) (rs : ℕ → ℝ) (fuel : ℕ)
    (rS rA rC rD : ℝ) (now : ℤ) (f : Flight)
    (hS0 : 0 ≤ rS) (hS1 : rS < 1) (hA0 : 0 ≤ rA) (hA1 : rA < 1)
    (hm : makeFlight id rs fuel rS rA rC rD now = some f) :
    (380 ≤ f.speedKts ∧ f.speedKts < 560) ∧
    (28000 ≤ f.altitudeFt ∧ f.altitudeFt < 40000) := by
  simp only [makeFlight] at hm
  split at hm
  · simp at hm
  · next fr2 to2 hpick =>
    cases Option.some.inj hm
    refine ⟨⟨?_, ?_⟩, ?_, ?_⟩
    · show ((380 : ℝ)) ≤ ((⌊(380 : ℝ) + rS * 180⌋ : ℤ) : ℝ)
      have h : (380 : ℤ) ≤ ⌊(380 : ℝ) + rS * 180⌋ := by
        apply Int.le_floor.mpr
        push_cast
        linarith
      exact_mod_cast h
    · show ((⌊(380 : ℝ) + rS * 180⌋ : ℤ) : ℝ) < 560
      have h := Int.floor_le ((380 : ℝ) + rS * 180)
      linarith
    · show ((28000 : ℝ)) ≤ ((⌊(28000 : ℝ) + rA * 12000⌋ : ℤ) : ℝ)
      have h : (28000 : ℤ) ≤ ⌊(28000 : ℝ) + rA * 12000⌋ := by
        apply Int.le_floor.mpr
        push_cast
        linarith
      exact_mod_cast h
    · show ((⌊(28000 : ℝ) + rA * 12000⌋ : ℤ) : ℝ) < 40000
      have h := Int.floor_le ((28000 : ℝ) + rA * 12000)
      linarith

/-- The speed and altitude ranges required of a generated flight. -/
def speedAltOk (f : Flight) : Prop :=
  (380 ≤ f.speedKts ∧ f.speedKts < 560) ∧
  (28000 ≤ f.altitudeFt ∧ f.altitudeFt < 40000)

/-- C9 witness: the range theorem applied to a concrete generated
flight. -/
theorem makeFlight_speed_alt_ranges_witness :
    (makeFlight "F2" rsJL 2 0 0 0 0 0).elim False speedAltOk := by
  have hm : ∃ g, makeFlight "F2" rsJL 2 0 0 0 0 0 = some g := by
    simp only [makeFlight, pick_rsJL]
    exact ⟨_, rfl⟩
  obtain ⟨g, hg⟩ := hm
  rw [hg]
  exact makeFlight_speed_alt_ranges "F2" rsJL 2 0 0 0 0 0 g
    (by norm_num) (by norm_num) (by norm_num) (by norm_num) hg

lemma tick_reroute_eq (f : Flight) (now : ℤ) (rs : ℕ → ℝ) (fuel : ℕ)
    (pr : ℝ) (next : GeoPoint) (dest fr2 to2 : Airport)
    (hnow : f.updatedAt < now)
    (hnext : next = move { lat := f.lat, lon := f.lon } f.heading
      (f.speedKts * 1.852 * (max 0 (((now - f.updatedAt : ℤ) : ℝ)) / 3600000)))
    (hfind : AIRPORTS.find? (fun a => decide (a.iata = f.to_)) = some dest)
    (hdist : distanceKm { lat := next.lat, lon := next.lon } dest.point < 30)
    (hpick : pickDifferentAirports rs fuel = some (fr2, to2)) :
    tick f now rs fuel pr =
      some { f with
             lat := next.lat
             lon := next.lon
             updatedAt := now
             from_ := fr2.iata
             to_ := to2.iata
             heading := jsMod (bearingDegrees fr2.point to2.point +
               (pr * 2 - 1) * 2) 360 } := by
  subst hnext
  simp only [tick]
  rw [if_neg (dtHours_pos hnow), hfind]
  split
  · next t ht =>
    cases Option.some.inj ht
    rw [if_pos hdist, hpick]
    rfl
  · next ht => exact absurd ht (by simp)

/-- C5: when the projected position of a tick lands within 30 km of the
destination airport, the re-route overwrites only the origin code, the
destination code and the heading; the position stays exactly the
dead-reckoning projection of that same tick, and speed, altitude, id,
callsign and createdAt keep their previous values. -/
theorem tick_reroute_frame (f : Flight) (now : ℤ) (rs : ℕ → ℝ) (fuel : ℕ)
    (pr : ℝ) (next : GeoPoint) (dest fr2 to2 : Airport)
    (hnow : f.updatedAt < now)
    (hnext : next = move { lat := f.lat, lon := f.lon } f.heading
      (f.speedKts * 1.852 * (max 0 (((now - f.updatedAt : ℤ) : ℝ)) / 3600000)))
    (hfind : AIRPORTS.find? (fun a => decide (a.iata = f.to_)) = some dest)
    (hdist : distanceKm { lat := next.lat, lon := next.lon } dest.point < 30)
    (hpick : pickDifferentAirports rs fuel = some (fr2, to2)) :
    (tick f now rs fuel pr).map Flight.lat = some next.lat ∧
    (tick f now rs fuel pr).map Flight.lon = some next.lon ∧
    (tick f now rs fuel pr).map Flight.speedKts = some f.speedKts ∧
    (tick f now rs fuel pr).map Flight.altitudeFt = some f.altitudeFt ∧
    (tick f now rs fuel pr).map Flight.id = some f.id ∧
    (tick f now rs fuel pr).map Flight.callsign = some f.callsign ∧
    (tick f now rs fuel pr).map Flight.createdAt = some f.createdAt := by
  rw [tick_reroute_eq f now rs fuel pr next dest fr2 to2 hnow hnext hfind hdist hpick]
  exact ⟨rfl, rfl, rfl, rfl, rfl, rfl, rfl⟩

/-- A flight parked exactly at the JFK coordinates, destination JFK,
ground speed 0: its dead-reckoning projection stays at JFK, forcing the
arrival re-route. -/
def atJfkFlight : Flight :=
  { id := "f5", callsign := "CC0005", from_ := "LHR", to_ := "JFK",
    lat := ((40.6413 : ℚ) : ℝ), lon := ((-73.7781 : ℚ) : ℝ),
    heading := 0, speedKts := 0, altitudeFt := 30000,
    createdAt := 0, updatedAt := 0 }

lemma atJfk_next : move { lat := atJfkFlight.lat, lon := atJfkFlight.lon }
    atJfkFlight.heading (atJfkFlight.speedKts * 1.852 *
      (max 0 (((3600000 - atJfkFlight.updatedAt : ℤ) : ℝ)) / 3600000)) =
    jfkA.point := by
  rw [show atJfkFlight.speedKts * 1.852 *
      (max 0 (((3600000 - atJfkFlight.updatedAt : ℤ) : ℝ)) / 3600000) = 0 by
    norm_num [atJfkFlight]]
  rw [show ({ lat := atJfkFlight.lat, lon := atJfkFlight.lon } : GeoPoint) =
    jfkA.point from rfl]
  apply move_zero
  · show (-90 : ℝ) ≤ ((40.6413 : ℚ) : ℝ)
    push_cast
    norm_num
  · show ((40.6413 : ℚ) : ℝ) ≤ 90
    push_cast
    norm_num
  · show (-180 : ℝ) < ((-73.7781 : ℚ) : ℝ)
    push_cast
    norm_num
  · show ((-73.7781 : ℚ) : ℝ) < 180
    push_cast
    norm_num

lemma atJfk_dist :
    distanceKm { lat := (jfkA.point).lat, lon := (jfkA.point).lon } jfkA.point < 30 := by
  show distanceKm jfkA.point jfkA.point < 30
  rw [distanceKm_self]
  norm_num

/-- C5 witness: the re-route frame theorem applied to the concrete
parked-at-JFK flight, ticked one hour later with pick draws (JFK, LAX)
and perturbation draw 0. -/
theorem tick_reroute_frame_witness :
    (tick atJfkFlight 3600000 rsJL 2 0).map Flight.lat = some (jfkA.point).lat ∧
    (tick atJfkFlight 3600000 rsJL 2 0).map Flight.lon = some (jfkA.point).lon ∧
    (tick atJfkFlight 3600000 rsJL 2 0).map Flight.speedKts = some atJfkFlight.speedKts ∧
    (tick atJfkFlight 3600000 rsJL 2 0).map Flight.altitudeFt = some atJfkFlight.altitudeFt ∧
    (tick atJfkFlight 3600000 rsJL 2 0).map Flight.id = some atJfkFlight.id ∧
    (tick atJfkFlight 3600000 rsJL 2 0).map Flight.callsign = some atJfkFlight.callsign ∧
    (tick atJfkFlight 3600000 rsJL 2 0).map Flight.createdAt = some atJfkFlight.createdAt :=
  tick_reroute_frame atJfkFlight 3600000 rsJL 2 0 jfkA.point jfkA jfkA laxA
    (by norm_num [atJfkFlight]) atJfk_next.symm rfl atJfk_dist pick_rsJL

lemma atan2_zero_zero : atan2 0 0 = 0 := by
  rw [atan2]
  simp

lemma bearing_self_lax : bearingDegrees laxA.point laxA.point = 0 := by
  simp only [bearingDegrees, sub_self, zero_mul, zero_div, Real.sin_zero,
    Real.cos_zero, mul_one]
  rw [show Real.cos (laxA.point.lat * Real.pi / 180) *
      Real.sin (laxA.point.lat * Real.pi / 180) -
      Real.sin (laxA.point.lat * Real.pi / 180) *
      Real.cos (laxA.point.lat * Real.pi / 180) = 0 by ring]
  rw [atan2_zero_zero, zero_mul, zero_div, zero_add]
  rw [jsMod, if_pos (by norm_num : (0:ℝ) ≤ 360)]
  rw [show (360 : ℝ) / 360 = ((1 : ℤ) : ℝ) by norm_num, Int.floor_intCast]
  norm_num

lemma bearing_jfk_lax_range :
    180 < bearingDegrees jfkA.point laxA.point ∧
    bearingDegrees jfkA.point laxA.point < 360 := by
  have hpi := Real.pi_pos
  have hlat1 : (33 : ℝ) < laxA.point.lat := by
    show (33 : ℝ) < ((33.9416 : ℚ) : ℝ)
    push_cast
    norm_num
  have hlat2 : laxA.point.lat < 34 := by
    show ((33.9416 : ℚ) : ℝ) < 34
    push_cast
    norm_num
  have hdl1 : (-45 : ℝ) < laxA.point.lon - jfkA.point.lon := by
    show (-45 : ℝ) < ((-118.4085 : ℚ) : ℝ) - ((-73.7781 : ℚ) : ℝ)
    push_cast
    norm_num
  have hdl2 : laxA.point.lon - jfkA.point.lon < -44 := by
    show ((-118.4085 : ℚ) : ℝ) - ((-73.7781 : ℚ) : ℝ) < -44
    push_cast
    norm_num
  simp only [bearingDegrees]
  set phi2 := laxA.point.lat * Real.pi / 180 with hphi2
  set dLam := (laxA.point.lon - jfkA.point.lon) * Real.pi / 180 with hdLam
  have hcos : 0 < Real.cos phi2 := by
    apply Real.cos_pos_of_mem_Ioo
    constructor
    · rw [hphi2]; nlinarith
    · rw [hphi2]; nlinarith
  have hdLam1 : -Real.pi < dLam := by rw [hdLam]; nlinarith
  have hdLam2 : dLam < 0 := by rw [hdLam]; nlinarith
  have hsin : Real.sin dLam < 0 := Real.sin_neg_of_neg_of_neg_pi_lt hdLam2 hdLam1
  have hy : Real.sin dLam * Real.cos phi2 < 0 := mul_neg_of_neg_of_pos hsin hcos
  set xv := Real.cos (jfkA.point.lat * Real.pi / 180) * Real.sin phi2 -
      Real.sin (jfkA.point.lat * Real.pi / 180) * Real.cos phi2 * Real.cos dLam with hxv
  have him : (((xv : ℝ) : ℂ) + ((Real.sin dLam * Real.cos phi2 : ℝ) : ℂ) * Complex.I).im =
      Real.sin dLam * Real.cos phi2 := by
    simp only [Complex.add_im, Complex.ofReal_im, Complex.mul_im, Complex.ofReal_re,
      Complex.I_im, Complex.I_re]
    ring
  have htheta_lt : atan2 (Real.sin dLam * Real.cos phi2) xv < 0 := by
    rw [atan2]
    apply Complex.arg_neg_iff.mpr
    rw [him]
    exact hy
  have htheta_gt : -Real.pi < atan2 (Real.sin dLam * Real.cos phi2) xv :=
    Complex.neg_pi_lt_arg _
  set th := atan2 (Real.sin dLam * Real.cos phi2) xv with hth
  have ht1 : -180 < th * 180 / Real.pi := by
    have h1 : -Real.pi * 180 < th * 180 := by nlinarith
    have h2 := (div_lt_div_iff_of_pos_right hpi).mpr h1
    have h3 : -Real.pi * 180 / Real.pi = -180 := by
      field_simp
      ring
    linarith [h3 ▸ h2]
  have ht2 : th * 180 / Real.pi < 0 :=
    div_neg_of_neg_of_pos (by nlinarith) hpi
  rw [jsMod_eq_self _ _ (by linarith) (by norm_num) (by linarith)]
  constructor <;> linarith

/-- C10: when a re-route fires, the heading written by `tick` (then fed
to the per-tick perturbation) is the great-circle bearing from the new
origin airport to the new destination airport, not from the flight's
current position; and the JFK-to-LAX bearing differs from the bearing
computed at LAX toward LAX, so a flight sitting at LAX that is
re-routed onto the pair (JFK, LAX) ends up with a heading that does not
point from the aircraft toward its new destination. -/
theorem tick_reroute_heading_source (f : Flight) (now : ℤ) (rs : ℕ → ℝ)
    (fuel : ℕ) (pr : ℝ) (next : GeoPoint) (dest fr2 to2 : Airport)
    (hnow : f.updatedAt < now)
    (hnext : next = move { lat := f.lat, lon := f.lon } f.heading
      (f.speedKts * 1.852 * (max 0 (((now - f.updatedAt : ℤ) : ℝ)) / 3600000)))
    (hfind : AIRPORTS.find? (fun a => decide (a.iata = f.to_)) = some dest)
    (hdist : distanceKm { lat := next.lat, lon := next.lon } dest.point < 30)
    (hpick : pickDifferentAirports rs fuel = some (fr2, to2)) :
    (tick f now rs fuel pr).map Flight.heading =
      some (jsMod (bearingDegrees fr2.point to2.point + (pr * 2 - 1) * 2) 360) ∧
    bearingDegrees jfkA.point laxA.point ≠ bearingDegrees laxA.point laxA.point := by
  constructor
  · rw [tick_reroute_eq f now rs fuel pr next dest fr2 to2 hnow hnext hfind hdist hpick]
    rfl
  · rw [bearing_self_lax]
    exact ne_of_gt (by linarith [bearing_jfk_lax_range.1])

/-- C10 witness: the heading-source theorem applied to the concrete
parked-at-JFK flight re-routed onto the pair (JFK, LAX). -/
theorem tick_reroute_heading_source_witness :
    (tick atJfkFlight 3600000 rsJL 2 0).map Flight.heading =
      some (jsMod (bearingDegrees jfkA.point laxA.point + ((0 : ℝ) * 2 - 1) * 2) 360) ∧
    bearingDegrees jfkA.point laxA.point ≠ bearingDegrees laxA.point laxA.point :=
  tick_reroute_heading_source atJfkFlight 3600000 rsJL 2 0 jfkA.point jfkA jfkA laxA
    (by norm_num [atJfkFlight]) atJfk_next.symm rfl atJfk_dist pick_rsJL

/-- The property that a flight's `updatedAt` is at least `t`. -/
def updatedAtLE (t : ℤ) (g : Flight) : Prop := t ≤ g.updatedAt

/-- C8 witness: the monotonicity theorem applied to a concrete tick
that returns a flight. -/
theorem tick_updatedAt_mono_witness :
    (tick headingBugFlight 0 rsZero 1 0).elim False
      (updatedAtLE headingBugFlight.updatedAt) := by
  have hg : tick headingBugFlight 0 rsZero 1 0 = some headingBugFlight := by
    simp only [tick]
    rw [if_pos (dtHours_nonpos (by norm_num [headingBugFlight]))]
  rw [hg]
  exact tick_updatedAt_mono headingBugFlight 0 rsZero 1 0 headingBugFlight hg

end FlightTracker
